import Mathlib

/-
Verification development for the Temporal-Semantic-Manifold spatial layout
core: the force-directed 3D projector (src/utils/eigendecomposition.ts,
second half), its cosine-similarity metric, and the Jacobi 3x3 symmetric
eigendecomposition with the ellipsoid construction that consumes it
(src/components/manifold-scene.tsx).

Embedding conventions:
* JavaScript numbers are modelled by `JSNum`: an exact rational for a finite
  double, plus Infinity, -Infinity and NaN, with the IEEE-754 special-value
  rules for the operations the code uses.  Finite arithmetic is exact
  (rounding is not modelled); the single rational zero stands for both
  signed zeros.
* The transcendental primitives of the Math library (sqrt on positive
  arguments, cos, sin, acos, atan2, and the constant PI) are parameters,
  packaged in a `MathOps` record: theorems quantify over every realization
  of these primitives, and facts the proofs need about the real library
  (such as Math.sqrt(1) = 1) appear as explicit hypotheses.  The fixed
  special cases (sqrt of 0 and of negatives, trig of non-finite inputs) are
  hard-wired in the wrappers.
* The Jacobi eigendecomposition and the ellipsoid construction only ever
  see finite values in the claims treated here, so they are embedded
  directly over the rationals.
-/

/- The Batteries rational-number operations are irreducible by default;
the concrete runs below are evaluated by `decide`, which needs them to
unfold. -/
attribute [local semireducible] Rat.add Rat.mul Rat.sub Rat.inv Rat.ofScientific

namespace TSM

/-- Math.max restricted to finite values (explicit definition so that
every proof obligation reduces by computation). -/
def mathMax (a b : ℚ) : ℚ := if a ≤ b then b else a

/-- Math.min restricted to finite values. -/
def mathMin (a b : ℚ) : ℚ := if b ≤ a then b else a

/-- Math.abs restricted to finite values. -/
def mathAbs (q : ℚ) : ℚ := if q < 0 then -q else q

/-- Math.floor restricted to finite values, via floor division of the
numerator by the denominator. -/
def ratFloor (q : ℚ) : ℤ := Int.fdiv q.num q.den

/-- Truncation toward zero of a rational (used by the JavaScript `%`). -/
def ratTrunc (q : ℚ) : ℤ := if 0 ≤ q then ratFloor q else -ratFloor (-q)

/-- Model of a JavaScript IEEE-754 number: a finite double idealised as an
exact rational, one of the two infinities, or NaN. -/
inductive JSNum where
  | fin (q : ℚ)
  | inf
  | ninf
  | nan
deriving DecidableEq, Repr

namespace JSNum

/-- JavaScript addition with the IEEE special-value rules. -/
def jsAdd : JSNum → JSNum → JSNum
  | nan, _ => nan
  | _, nan => nan
  | inf, ninf => nan
  | ninf, inf => nan
  | inf, _ => inf
  | _, inf => inf
  | ninf, _ => ninf
  | _, ninf => ninf
  | fin a, fin b => fin (a + b)

/-- JavaScript negation. -/
def jsNeg : JSNum → JSNum
  | nan => nan
  | inf => ninf
  | ninf => inf
  | fin a => fin (-a)

/-- JavaScript subtraction. -/
def jsSub (a b : JSNum) : JSNum := jsAdd a (jsNeg b)

/-- JavaScript multiplication with the IEEE special-value rules
(Infinity times zero is NaN). -/
def jsMul : JSNum → JSNum → JSNum
  | nan, _ => nan
  | _, nan => nan
  | inf, inf => inf
  | inf, ninf => ninf
  | ninf, inf => ninf
  | ninf, ninf => inf
  | inf, fin b => if b = 0 then nan else if 0 < b then inf else ninf
  | fin a, inf => if a = 0 then nan else if 0 < a then inf else ninf
  | ninf, fin b => if b = 0 then nan else if 0 < b then ninf else inf
  | fin a, ninf => if a = 0 then nan else if 0 < a then ninf else inf
  | fin a, fin b => fin (a * b)

/-- JavaScript division: Infinity/Infinity and 0/0 are NaN, a nonzero
finite over zero is a (positive) infinity, finite over infinite is 0. -/
def jsDiv : JSNum → JSNum → JSNum
  | nan, _ => nan
  | _, nan => nan
  | inf, inf => nan
  | inf, ninf => nan
  | ninf, inf => nan
  | ninf, ninf => nan
  | inf, fin b => if 0 ≤ b then inf else ninf
  | ninf, fin b => if 0 ≤ b then ninf else inf
  | fin _, inf => fin 0
  | fin _, ninf => fin 0
  | fin a, fin b =>
      if b = 0 then (if a = 0 then nan else if 0 < a then inf else ninf)
      else fin (a / b)

/-- Math.max: NaN absorbs, otherwise the larger value. -/
def jsMax : JSNum → JSNum → JSNum
  | nan, _ => nan
  | _, nan => nan
  | inf, _ => inf
  | _, inf => inf
  | ninf, y => y
  | x, ninf => x
  | fin a, fin b => fin (mathMax a b)

/-- Math.min: NaN absorbs, otherwise the smaller value. -/
def jsMin : JSNum → JSNum → JSNum
  | nan, _ => nan
  | _, nan => nan
  | ninf, _ => ninf
  | _, ninf => ninf
  | inf, y => y
  | x, inf => x
  | fin a, fin b => fin (mathMin a b)

/-- Number.isFinite. -/
def isFinite : JSNum → Bool
  | fin _ => true
  | _ => false

/-- The JavaScript expression `v || d` on numbers: 0 and NaN are falsy. -/
def jsOr (v d : JSNum) : JSNum :=
  if v = fin 0 ∨ v = nan then d else v

/-- Math.floor. -/
def jsFloor : JSNum → JSNum
  | nan => nan
  | inf => inf
  | ninf => ninf
  | fin q => fin (ratFloor q : ℤ)

/-- The JavaScript remainder operator `%`: NaN for non-finite dividends,
the dividend itself for infinite divisors, and for finite operands the
remainder with the sign of the dividend. -/
def jsRem : JSNum → JSNum → JSNum
  | nan, _ => nan
  | _, nan => nan
  | inf, _ => nan
  | ninf, _ => nan
  | fin a, inf => fin a
  | fin a, ninf => fin a
  | fin a, fin b =>
      if b = 0 then nan else fin (a - b * (ratTrunc (a / b) : ℚ))

end JSNum

open JSNum

/-- The transcendental primitives of the JavaScript Math library, left
abstract: any theorem quantified over `MathOps` holds for every
realization of the library, with specific facts about the real library
taken as explicit hypotheses where needed. -/
structure MathOps where
  sqrt : ℚ → ℚ
  cos : ℚ → ℚ
  sin : ℚ → ℚ
  acos : ℚ → ℚ
  atan2 : ℚ → ℚ → ℚ
  pi : ℚ

/-- Math.sqrt on a JSNum: NaN for negatives and NaN and -Infinity,
Infinity for Infinity, exactly 0 at 0, and the abstract primitive on
positive rationals. -/
def jsSqrt (ops : MathOps) : JSNum → JSNum
  | JSNum.nan => JSNum.nan
  | JSNum.inf => JSNum.inf
  | JSNum.ninf => JSNum.nan
  | JSNum.fin q => if q < 0 then JSNum.nan else if q = 0 then JSNum.fin 0 else JSNum.fin (ops.sqrt q)

/-- Math.cos on a JSNum (NaN on every non-finite input). -/
def jsCos (ops : MathOps) : JSNum → JSNum
  | JSNum.fin q => JSNum.fin (ops.cos q)
  | _ => JSNum.nan

/-- Math.sin on a JSNum (NaN on every non-finite input). -/
def jsSin (ops : MathOps) : JSNum → JSNum
  | JSNum.fin q => JSNum.fin (ops.sin q)
  | _ => JSNum.nan

/-- Math.acos on a JSNum: NaN outside [-1, 1] and on non-finite input. -/
def jsACos (ops : MathOps) : JSNum → JSNum
  | JSNum.fin q => if q < -1 ∨ 1 < q then JSNum.nan else JSNum.fin (ops.acos q)
  | _ => JSNum.nan

/-- The body of the `cosineSimilarity` accumulation loop: each entry is
read through the `|| 0` guard (so NaN and missing entries are coerced to
0, but infinities pass through) and added into the dot product and the
two squared norms. -/
def simStep (a b : List JSNum) (acc : JSNum × JSNum × JSNum) (i : Nat) :
    JSNum × JSNum × JSNum :=
  let ai := jsOr (a.getD i (JSNum.fin 0)) (JSNum.fin 0)
  let bi := jsOr (b.getD i (JSNum.fin 0)) (JSNum.fin 0)
  (jsAdd acc.1 (jsMul ai bi),
   jsAdd acc.2.1 (jsMul ai ai),
   jsAdd acc.2.2 (jsMul bi bi))

/-- The accumulation loop of `cosineSimilarity` over the indices of the
first vector. -/
def simFold (a b : List JSNum) : JSNum × JSNum × JSNum :=
  (List.range a.length).foldl (simStep a b) (JSNum.fin 0, JSNum.fin 0, JSNum.fin 0)

/-- `cosineSimilarity` from src/utils/eigendecomposition.ts: empty inputs
and zero norms give 0, otherwise the quotient clamped to [-1, 1] by
Math.max/Math.min. -/
def cosineSimilarity (ops : MathOps) (a b : List JSNum) : JSNum :=
  if a.length = 0 ∨ b.length = 0 then JSNum.fin 0
  else
    let t := simFold a b
    if t.2.1 = JSNum.fin 0 ∨ t.2.2 = JSNum.fin 0 then JSNum.fin 0
    else
      let s := jsDiv t.1 (jsMul (jsSqrt ops t.2.1) (jsSqrt ops t.2.2))
      jsMax (JSNum.fin (-1)) (jsMin (JSNum.fin 1) s)

/-- `clamp` from the source: non-finite values are replaced by 0,
finite values are clamped into [min, max]. -/
def clamp (val lo hi : JSNum) : JSNum :=
  if isFinite val then jsMax lo (jsMin hi val) else JSNum.fin 0

/-- One step of the linear-congruential generator in `seededRandom`:
seed = (seed * 1103515245 + 12345) % 2147483648. -/
def lcgNext (s : JSNum) : JSNum :=
  jsRem (jsAdd (jsMul s (JSNum.fin 1103515245)) (JSNum.fin 12345)) (JSNum.fin 2147483648)

/-- The seed reduction over the embeddings:
acc + (emb[0] || 0) + (emb[1] || 0) + emb.length, starting from 42. -/
def seedReduce (e : List (List JSNum)) : JSNum :=
  e.foldl
    (fun acc emb =>
      jsAdd (jsAdd (jsAdd acc (jsOr (emb.getD 0 (JSNum.fin 0)) (JSNum.fin 0)))
        (jsOr (emb.getD 1 (JSNum.fin 0)) (JSNum.fin 0))) (JSNum.fin (emb.length : ℚ)))
    (JSNum.fin 42)

/-- The generator seed: Math.floor(seed * 1000). -/
def initialSeed (e : List (List JSNum)) : JSNum :=
  jsFloor (jsMul (seedReduce e) (JSNum.fin 1000))

/-- A 3D position [x, y, z]. -/
structure V3 where
  x : JSNum
  y : JSNum
  z : JSNum
deriving DecidableEq, Repr

/-- The all-zero position. -/
def v3zero : V3 := ⟨JSNum.fin 0, JSNum.fin 0, JSNum.fin 0⟩

/-- The initialization loop: n points on a random sphere shell, consuming
three generator draws per point (theta, the acos argument, the radius),
threading the generator state explicitly. -/
def initPositionsGo (ops : MathOps) : Nat → JSNum → List V3
  | 0, _ => []
  | k + 1, s =>
    let s1 := lcgNext s
    let u1 := jsDiv s1 (JSNum.fin 2147483648)
    let s2 := lcgNext s1
    let u2 := jsDiv s2 (JSNum.fin 2147483648)
    let s3 := lcgNext s2
    let u3 := jsDiv s3 (JSNum.fin 2147483648)
    let theta := jsMul (jsMul u1 (JSNum.fin 2)) (JSNum.fin ops.pi)
    let phi := jsACos ops (jsSub (jsMul (JSNum.fin 2) u2) (JSNum.fin 1))
    let r := jsAdd (JSNum.fin 3) (jsMul u3 (JSNum.fin 7))
    ⟨jsMul (jsMul r (jsSin ops phi)) (jsCos ops theta),
     jsMul (jsMul r (jsSin ops phi)) (jsSin ops theta),
     jsMul r (jsCos ops phi)⟩ :: initPositionsGo ops k s3

/-- Initial positions of `projectTo3D`, seeded only from the input. -/
def initPositions (ops : MathOps) (e : List (List JSNum)) : List V3 :=
  initPositionsGo ops e.length (initialSeed e)

/-- The cached similarity matrix: 1 on the diagonal, cosine similarity
off the diagonal. -/
def simMatrix (ops : MathOps) (e : List (List JSNum)) : List (List JSNum) :=
  (List.range e.length).map fun i =>
    (List.range e.length).map fun j =>
      if i = j then JSNum.fin 1 else cosineSimilarity ops (e.getD i []) (e.getD j [])

/-- The ideal distance for a similarity: (1 - sim) * 20 + 2. -/
def idealDist (sim : JSNum) : JSNum :=
  jsAdd (jsMul (jsSub (JSNum.fin 1) sim) (JSNum.fin 20)) (JSNum.fin 2)

/-- The body of the pair loop: contributes the symmetric force of the
pair (i, j) into the force accumulator. -/
def pairStep (ops : MathOps) (sims : List (List JSNum)) (attrS repS : JSNum)
    (ps : List V3) (fs : List V3) (i j : Nat) : List V3 :=
  let pI := ps.getD i v3zero
  let pJ := ps.getD j v3zero
  let dx := jsSub pJ.x pI.x
  let dy := jsSub pJ.y pI.y
  let dz := jsSub pJ.z pI.z
  let distSq := jsAdd (jsAdd (jsMul dx dx) (jsMul dy dy)) (jsMul dz dz)
  let dist := jsOr (jsSqrt ops distSq) (JSNum.fin (1/10))
  let sim := (sims.getD i []).getD j (JSNum.fin 0)
  let ideal := idealDist sim
  let attraction := jsMul (jsSub dist ideal) attrS
  let repulsion := jsDiv (jsNeg repS) (jsAdd distSq (JSNum.fin 1))
  let tf := jsAdd attraction repulsion
  let fx := jsMul (jsDiv dx dist) tf
  let fy := jsMul (jsDiv dy dist) tf
  let fz := jsMul (jsDiv dz dist) tf
  let fi := fs.getD i v3zero
  let fs1 := fs.set i ⟨jsAdd fi.x fx, jsAdd fi.y fy, jsAdd fi.z fz⟩
  let fj := fs1.getD j v3zero
  fs1.set j ⟨jsSub fj.x fx, jsSub fj.y fy, jsSub fj.z fz⟩

/-- All unordered pairs i < j in the order of the nested source loops. -/
def pairList (n : Nat) : List (Nat × Nat) :=
  (List.range n).flatMap fun i => (List.range' (i + 1) (n - (i + 1))).map fun j => (i, j)

/-- One relaxation iteration: fresh force buffer, pair accumulation, then
the clamped synchronous position update. -/
def iterStep (ops : MathOps) (sims : List (List JSNum)) (n : Nat) (iter : Nat)
    (ps : List V3) : List V3 :=
  let decay := jsSub (JSNum.fin 1) (jsDiv (JSNum.fin (iter : ℚ)) (JSNum.fin 150))
  let attrS := jsMul (JSNum.fin (2/100)) decay
  let repS := jsMul (JSNum.fin (8/10)) decay
  let fs := (pairList n).foldl
    (fun fs pq => pairStep ops sims attrS repS ps fs pq.1 pq.2)
    (List.replicate n v3zero)
  (List.range n).map fun i =>
    let f := fs.getD i v3zero
    let fx := clamp f.x (JSNum.fin (-2)) (JSNum.fin 2)
    let fy := clamp f.y (JSNum.fin (-2)) (JSNum.fin 2)
    let fz := clamp f.z (JSNum.fin (-2)) (JSNum.fin 2)
    let p := ps.getD i v3zero
    ⟨clamp (jsAdd p.x fx) (JSNum.fin (-15)) (JSNum.fin 15),
     clamp (jsAdd p.y fy) (JSNum.fin (-15)) (JSNum.fin 15),
     clamp (jsAdd p.z fz) (JSNum.fin (-15)) (JSNum.fin 15)⟩

/-- The positions after the fixed budget of 150 relaxation iterations. -/
def relaxedPositions (ops : MathOps) (e : List (List JSNum)) : List V3 :=
  let sims := simMatrix ops e
  (List.range 150).foldl (fun ps iter => iterStep ops sims e.length iter ps)
    (initPositions ops e)

/-- Sum of one coordinate over the position list (the centroid loop). -/
def sumBy (f : V3 → JSNum) (ps : List V3) : JSNum :=
  ps.foldl (fun acc p => jsAdd acc (f p)) (JSNum.fin 0)

/-- One centroid coordinate: the coordinate sum divided by n. -/
def centerCoord (n : Nat) (ps : List V3) (f : V3 → JSNum) : JSNum :=
  jsDiv (sumBy f ps) (JSNum.fin (n : ℚ))

/-- The final centering pass: subtract the centroid from every point and
re-clamp each coordinate into [-15, 15]. -/
def centerStep (n : Nat) (ps : List V3) : List V3 :=
  let cx := centerCoord n ps (fun p => p.x)
  let cy := centerCoord n ps (fun p => p.y)
  let cz := centerCoord n ps (fun p => p.z)
  ps.map fun p =>
    ⟨clamp (jsSub p.x cx) (JSNum.fin (-15)) (JSNum.fin 15),
     clamp (jsSub p.y cy) (JSNum.fin (-15)) (JSNum.fin 15),
     clamp (jsSub p.z cz) (JSNum.fin (-15)) (JSNum.fin 15)⟩

/-- `projectTo3D` from src/utils/eigendecomposition.ts: the three
closed-form shortcuts, then seeded initialization, 150 force iterations
and the centering pass. -/
def projectTo3D (ops : MathOps) (e : List (List JSNum)) : List V3 :=
  if e.length = 0 then []
  else if e.length = 1 then [v3zero]
  else if e.length = 2 then [⟨JSNum.fin (-5), JSNum.fin 0, JSNum.fin 0⟩, ⟨JSNum.fin 5, JSNum.fin 0, JSNum.fin 0⟩]
  else centerStep e.length (relaxedPositions ops e)

/-- The centroid of a list of positions (used to state the centering
property). -/
def centroid3 (ps : List V3) : V3 :=
  ⟨centerCoord ps.length ps (fun p => p.x),
   centerCoord ps.length ps (fun p => p.y),
   centerCoord ps.length ps (fun p => p.z)⟩

/-
The 3x3 symmetric Jacobi eigendecomposition
(src/utils/eigendecomposition.ts, first half) and the ellipsoid
construction that consumes it (computeEllipsoidGeometry in
src/components/manifold-scene.tsx).  Every value these claims exercise is
finite, so this part is embedded directly over the rationals; the
trigonometric primitives come from the same abstract `MathOps` record.
-/

/-- A 3x3 matrix as nested rows, exactly like the source arrays. -/
abbrev Mat3 := List (List ℚ)

/-- Read entry (i, j) of a matrix. -/
def mget (m : Mat3) (i j : Nat) : ℚ := (m.getD i []).getD j 0

/-- Write entry (i, j) of a matrix. -/
def mset (m : Mat3) (i j : Nat) (x : ℚ) : Mat3 := m.set i ((m.getD i []).set j x)

/-- The defensive copy `matrix.map((row) => [...row])` taken before the
Jacobi loop mutates the working matrix. -/
def copyMatrix (m : Mat3) : Mat3 := m.map fun row => row.map fun x => x

/-- The identity matrix that seeds the eigenvector accumulator. -/
def idMat : Mat3 := [[1, 0, 0], [0, 1, 0], [0, 0, 1]]

/-- The pivot search: the largest-magnitude strictly-upper off-diagonal
entry, scanned in the order of the nested source loops, with strict
improvement over the initial (0, p=0, q=1). -/
def findPivot (a : Mat3) : ℚ × Nat × Nat :=
  [(0, 1), (0, 2), (1, 2)].foldl
    (fun acc pq =>
      if acc.1 < mathAbs (mget a pq.1 pq.2) then (mathAbs (mget a pq.1 pq.2), pq.1, pq.2)
      else acc)
    (0, 0, 1)

/-- The Jacobi plane rotation applied to the working matrix: update the
two diagonal entries, zero the pivot pair, then fix the off-diagonal
entries in rows and columns p and q, reading and writing sequentially as
the source does. -/
def rotateA (a : Mat3) (p q : Nat) (c s : ℚ) : Mat3 :=
  let app := mget a p p
  let aqq := mget a q q
  let apq := mget a p q
  let a1 := mset a p p (c * c * app - 2 * s * c * apq + s * s * aqq)
  let a2 := mset a1 q q (s * s * app + 2 * s * c * apq + c * c * aqq)
  let a3 := mset a2 p q 0
  let a4 := mset a3 q p 0
  (List.range 3).foldl
    (fun m i =>
      if i ≠ p ∧ i ≠ q then
        let aip := mget m i p
        let aiq := mget m i q
        let m1 := mset m i p (c * aip - s * aiq)
        let m2 := mset m1 p i (mget m1 i p)
        let m3 := mset m2 i q (s * aip + c * aiq)
        mset m3 q i (mget m3 i q)
      else m)
    a4

/-- The Jacobi rotation applied to the eigenvector accumulator columns p
and q. -/
def rotateV (v : Mat3) (p q : Nat) (c s : ℚ) : Mat3 :=
  (List.range 3).foldl
    (fun m i =>
      let vip := mget m i p
      let viq := mget m i q
      let m1 := mset m i p (c * vip - s * viq)
      mset m1 i q (s * vip + c * viq))
    v

/-- The state threaded through the Jacobi loop.  `caller` is the array the
caller passed in: the source mutates only the copy (`work`) and the
accumulator (`vecs`), so the caller component is carried through untouched
to make the frame property explicit. -/
structure JacobiState where
  caller : Mat3
  work : Mat3
  vecs : Mat3
deriving DecidableEq, Repr

/-- The Jacobi iteration: up to the given fuel (MAX_ITERATIONS = 50)
rotations, stopping early when the largest off-diagonal magnitude falls
below EPSILON = 1e-10. -/
def jacobiGo (ops : MathOps) : Nat → JacobiState → JacobiState
  | 0, st => st
  | fuel + 1, st =>
    let piv := findPivot st.work
    if piv.1 < 1 / 10000000000 then st
    else
      let p := piv.2.1
      let q := piv.2.2
      let theta := 1 / 2 * ops.atan2 (2 * mget st.work p q) (mget st.work q q - mget st.work p p)
      let c := ops.cos theta
      let s := ops.sin theta
      jacobiGo ops fuel ⟨st.caller, rotateA st.work p q c s, rotateV st.vecs p q c s⟩

/-- A THREE.Vector3 holding only finite values. -/
structure Vec3Q where
  x : ℚ
  y : ℚ
  z : ℚ
deriving DecidableEq, Repr

/-- Math.sqrt as used on the (nonnegative) rational side: exactly 0 at 0,
the abstract primitive on positive arguments.  Negative arguments never
occur on this path. -/
def mathSqrt (ops : MathOps) (q : ℚ) : ℚ := if q ≤ 0 then 0 else ops.sqrt q

/-- THREE.Vector3.normalize: divide by `length || 1`. -/
def normalizeV (ops : MathOps) (v : Vec3Q) : Vec3Q :=
  let len := mathSqrt ops (v.x * v.x + v.y * v.y + v.z * v.z)
  let d := if len = 0 then 1 else len
  ⟨v.x / d, v.y / d, v.z / d⟩

/-- Stable insertion of an eigenpair into a descending-sorted list:
placed before the first strictly smaller eigenvalue, hence after any
equal one, matching the stable JavaScript sort with comparator
(a, b) => b.value - a.value. -/
def insDesc (x : ℚ × Vec3Q) : List (ℚ × Vec3Q) → List (ℚ × Vec3Q)
  | [] => [x]
  | y :: ys => if y.1 < x.1 then x :: y :: ys else y :: insDesc x ys

/-- Stable descending sort of the three eigenpairs. -/
def sortPairsDesc (l : List (ℚ × Vec3Q)) : List (ℚ × Vec3Q) :=
  l.foldl (fun acc x => insDesc x acc) []

/-- The result record of `computeEigendecomposition`. -/
structure EigResult where
  eigenvalues : ℚ × ℚ × ℚ
  eigenvectors : Vec3Q × Vec3Q × Vec3Q
deriving DecidableEq, Repr

/-- `computeEigendecomposition`, together with the caller-visible matrix
after the call (the second component), which the source protects by
copying before the loop.  Diagonal of the converged working matrix gives
the eigenvalues, the accumulator columns (normalized) the eigenvectors,
sorted descending by eigenvalue. -/
def computeEigendecompositionS (ops : MathOps) (matrix : Mat3) : EigResult × Mat3 :=
  let st := jacobiGo ops 50 ⟨matrix, copyMatrix matrix, idMat⟩
  let a := st.work
  let v := st.vecs
  let ev0 := normalizeV ops ⟨mget v 0 0, mget v 1 0, mget v 2 0⟩
  let ev1 := normalizeV ops ⟨mget v 0 1, mget v 1 1, mget v 2 1⟩
  let ev2 := normalizeV ops ⟨mget v 0 2, mget v 1 2, mget v 2 2⟩
  let sorted := sortPairsDesc [(mget a 0 0, ev0), (mget a 1 1, ev1), (mget a 2 2, ev2)]
  let d : ℚ × Vec3Q := (0, ⟨0, 0, 0⟩)
  (⟨((sorted.getD 0 d).1, (sorted.getD 1 d).1, (sorted.getD 2 d).1),
    ((sorted.getD 0 d).2, (sorted.getD 1 d).2, (sorted.getD 2 d).2)⟩,
   st.caller)

/-- `computeEigendecomposition` as the caller sees its return value. -/
def computeEigendecomposition (ops : MathOps) (matrix : Mat3) : EigResult :=
  (computeEigendecompositionS ops matrix).1

/-- `createRotationMatrix`: Matrix4.makeBasis with the three eigenvectors
as columns, restricted to its upper-left 3x3 block. -/
def createRotationMatrix (evs : Vec3Q × Vec3Q × Vec3Q) : Mat3 :=
  [[evs.1.x, evs.2.1.x, evs.2.2.x],
   [evs.1.y, evs.2.1.y, evs.2.2.y],
   [evs.1.z, evs.2.1.z, evs.2.2.z]]

/-- A node as the ellipsoid construction sees it: only the 3D position is
read (the remaining fields of the source record are rendering metadata). -/
structure ProjectedNode where
  position : Vec3Q
deriving DecidableEq, Repr

/-- The ellipsoid record: centroid, the three radii and the rotation
basis. -/
structure EllipsoidGeometry where
  centroid : Vec3Q
  radii : ℚ × ℚ × ℚ
  rotation : Mat3
deriving DecidableEq, Repr

/-- Step 1 of `computeEllipsoidGeometry`: the member centroid. -/
def centroidOfNodes (members : List ProjectedNode) : Vec3Q :=
  let c := members.foldl
    (fun acc node =>
      (⟨acc.x + node.position.x, acc.y + node.position.y, acc.z + node.position.z⟩ : Vec3Q))
    ⟨0, 0, 0⟩
  ⟨c.x / (members.length : ℚ), c.y / (members.length : ℚ), c.z / (members.length : ℚ)⟩

/-- Step 2 of `computeEllipsoidGeometry`: the regularized covariance
matrix, accumulating the upper triangle over the EPSILON = 0.05 diagonal,
then dividing by the member count and mirroring, in source order. -/
def covMatrixOf (members : List ProjectedNode) (centroid : Vec3Q) : Mat3 :=
  let base : Mat3 := [[5/100, 0, 0], [0, 5/100, 0], [0, 0, 5/100]]
  let acc := members.foldl
    (fun m node =>
      let dx := node.position.x - centroid.x
      let dy := node.position.y - centroid.y
      let dz := node.position.z - centroid.z
      let m1 := mset m 0 0 (mget m 0 0 + dx * dx)
      let m2 := mset m1 0 1 (mget m1 0 1 + dx * dy)
      let m3 := mset m2 0 2 (mget m2 0 2 + dx * dz)
      let m4 := mset m3 1 1 (mget m3 1 1 + dy * dy)
      let m5 := mset m4 1 2 (mget m4 1 2 + dy * dz)
      mset m5 2 2 (mget m5 2 2 + dz * dz))
    base
  let n : ℚ := (members.length : ℚ)
  let b1 := mset acc 0 0 (mget acc 0 0 / n)
  let b2 := mset b1 0 1 (mget b1 0 1 / n)
  let b3 := mset b2 0 2 (mget b2 0 2 / n)
  let b4 := mset b3 1 0 (mget b3 0 1)
  let b5 := mset b4 1 1 (mget b4 1 1 / n)
  let b6 := mset b5 1 2 (mget b5 1 2 / n)
  let b7 := mset b6 2 0 (mget b6 0 2)
  let b8 := mset b7 2 1 (mget b7 1 2)
  mset b8 2 2 (mget b8 2 2 / n)

/-- Number.isFinite on the exact-rational side of the embedding: every
rational is finite, so the final safety fallback never fires. -/
def qIsFinite (_ : ℚ) : Bool := true

/-- `computeEllipsoidGeometry` from src/components/manifold-scene.tsx:
null for an empty group, otherwise centroid, regularized covariance,
eigendecomposition, radii max(sqrt(abs(ev)) * 7.0, 2.0) * 1.6 with the
finiteness fallback, and the eigenvector rotation basis. -/
def computeEllipsoidGeometry (ops : MathOps) (members : List ProjectedNode) :
    Option EllipsoidGeometry :=
  if members.length = 0 then none
  else
    let centroid := centroidOfNodes members
    let cov := covMatrixOf members centroid
    let r := computeEigendecomposition ops cov
    let rad0 := mathMax (mathSqrt ops (mathAbs r.eigenvalues.1) * 7) 2 * (16/10)
    let rad1 := mathMax (mathSqrt ops (mathAbs r.eigenvalues.2.1) * 7) 2 * (16/10)
    let rad2 := mathMax (mathSqrt ops (mathAbs r.eigenvalues.2.2) * 7) 2 * (16/10)
    let rotation := createRotationMatrix r.eigenvectors
    let radF0 := if qIsFinite rad0 then rad0 else 2
    let radF1 := if qIsFinite rad1 then rad1 else 2
    let radF2 := if qIsFinite rad2 then rad2 else 2
    some ⟨centroid, (radF0, radF1, radF2), rotation⟩

/-
Concrete inputs used by the witnesses and counterexamples below.  The
`CE` and `W` families drive `projectTo3D` on three vectors placed in a
configuration that the force loop leaves exactly stationary (the
attraction and the repulsion of each separated pair cancel identically,
and coincident points exert no force), so the 150 iterations can be
evaluated exactly.
-/

/-- Embedding helper: the rational payload of a finite JSNum (0 on the
special values); used only to state and prove value-level facts. -/
def toQ : JSNum → ℚ
  | JSNum.fin q => q
  | _ => 0

/-- First theta value drawn by the generator from seed 50000. -/
def thetaD1 : ℚ := 1394682843/1073741824

/-- Second theta value drawn by the generator from seed 50000. -/
def thetaD2 : ℚ := 543757149/268435456

/-- Third theta value drawn by the generator from seed 50000. -/
def thetaD3 : ℚ := 4709968545/1073741824

/-- First shell radius drawn by the generator from seed 50000. -/
def radD1 : ℚ := 8914664457/2147483648

/-- Second shell radius drawn by the generator from seed 50000. -/
def radD2 : ℚ := 7800779451/1073741824

/-- Third shell radius drawn by the generator from seed 50000. -/
def radD3 : ℚ := 11018173319/2147483648

/-- The cross similarity of the stationary counterexample run: chosen so
that at distance 24 the attraction (dist - ideal) * 0.02 and the
repulsion 0.8 / (dist^2 + 1) cancel exactly. -/
def simCE : ℚ := -557/5770

/-- Squared norm of the third counterexample vector. -/
def nrmCE : ℚ := 2 * ((557/5770) * (557/5770))

/-- A realization of the Math primitives for the counterexample run:
sqrt is tabulated at the arguments the run visits, cos places the three
points at x = -12, -12, 12 on their shells, sin and acos separate the
theta range (below 9) from the phi range (at least 9), and PI is any
fixed rational. -/
def opsCE : MathOps :=
  ⟨fun q => if q = 576 then 24 else if q = 1 then 1 else if q = nrmCE then 1 else 0,
   fun q => if q = thetaD1 then -12/radD1 else if q = thetaD2 then -12/radD2
            else if q = thetaD3 then 12/radD3 else 0,
   fun q => if q < 9 then 0 else 1,
   fun q => q + 10,
   fun _ _ => 0,
   3⟩

/-- The counterexample embedding list: two identical vectors and a third
one with the engineered cross similarity, summing to a seed of 50. -/
def embCE : List (List JSNum) :=
  [[JSNum.fin 1, JSNum.fin 0], [JSNum.fin 1, JSNum.fin 0],
   [JSNum.fin simCE, JSNum.fin (-simCE)]]

/-- The cross similarity of the stationary witness run: cancellation at
distance 16, which keeps the final centering inside the clamp bounds. -/
def simW : ℚ := 791/2570

/-- Squared norm of the third witness vector. -/
def nrmW : ℚ := 2 * ((791/2570) * (791/2570))

/-- A realization of the Math primitives for the witness run, placing the
three points at x = -8, -8, 8. -/
def opsW : MathOps :=
  ⟨fun q => if q = 256 then 16 else if q = 1 then 1 else if q = nrmW then 1 else 0,
   fun q => if q = thetaD1 then -8/radD1 else if q = thetaD2 then -8/radD2
            else if q = thetaD3 then 8/radD3 else 0,
   fun q => if q < 9 then 0 else 1,
   fun q => q + 10,
   fun _ _ => 0,
   3⟩

/-- The witness embedding list for the centering theorem. -/
def embW : List (List JSNum) :=
  [[JSNum.fin 1, JSNum.fin 0], [JSNum.fin 1, JSNum.fin 0],
   [JSNum.fin simW, JSNum.fin (-simW)]]

/-- A realization of the Math primitives for the remaining witnesses:
sqrt is correct at 1, 9, 16 and rounded at 1/20. -/
def opsDemo : MathOps :=
  ⟨fun q => if q = 1 then 1 else if q = 9 then 3 else if q = 16 then 4
            else if q = 1/20 then 22/100 else 0,
   fun _ => 0, fun _ => 0, fun q => q, fun _ _ => 0, 3⟩

/-- A concrete node for the singleton-ellipsoid witness. -/
def nodeDemo : ProjectedNode := ⟨⟨4, -3, 7⟩⟩

/-
Helper lemmas shared by the claim theorems.
-/

/-- Clamping into [-15, 15] always yields a finite value in [-15, 15]. -/
theorem clamp15_flat (v : JSNum) :
    ∃ q : ℚ, clamp v (JSNum.fin (-15)) (JSNum.fin 15) = JSNum.fin q ∧ -15 ≤ q ∧ q ≤ 15 := by
  cases v with
  | fin q =>
      refine ⟨mathMax (-15) (mathMin 15 q), ?_, ?_, ?_⟩
      · simp [clamp, JSNum.isFinite, JSNum.jsMax, JSNum.jsMin]
      · unfold mathMax mathMin
        split_ifs <;> linarith
      · unfold mathMax mathMin
        split_ifs <;> linarith
  | inf => exact ⟨0, by simp [clamp, JSNum.isFinite], by norm_num, by norm_num⟩
  | ninf => exact ⟨0, by simp [clamp, JSNum.isFinite], by norm_num, by norm_num⟩
  | nan => exact ⟨0, by simp [clamp, JSNum.isFinite], by norm_num, by norm_num⟩

/-- One relaxation iteration always returns exactly n positions. -/
theorem iterStep_length (ops : MathOps) (sims : List (List JSNum)) (n it : Nat)
    (ps : List V3) : (iterStep ops sims n it ps).length = n := by
  simp [iterStep]

/-- The iteration fold preserves the point count. -/
theorem foldl_iterStep_length (ops : MathOps) (sims : List (List JSNum)) (n : Nat) :
    ∀ (l : List Nat) (ps : List V3), ps.length = n →
      (l.foldl (fun ps it => iterStep ops sims n it ps) ps).length = n := by
  intro l
  induction l with
  | nil => intro ps h; simpa using h
  | cons a t ih =>
      intro ps _
      simpa using ih (iterStep ops sims n a ps) (iterStep_length ops sims n a ps)

/-- The initialization loop returns exactly the requested number of
points. -/
theorem initPositionsGo_length (ops : MathOps) :
    ∀ (k : Nat) (s : JSNum), (initPositionsGo ops k s).length = k := by
  intro k
  induction k with
  | zero => intro s; simp [initPositionsGo]
  | succ m ih => intro s; simp [initPositionsGo, ih]

/-- The relaxed position list has one entry per input vector. -/
theorem relaxedPositions_length (ops : MathOps) (e : List (List JSNum)) :
    (relaxedPositions ops e).length = e.length := by
  unfold relaxedPositions
  exact foldl_iterStep_length ops _ _ _ _ (by
    simpa [initPositions] using initPositionsGo_length ops e.length (initialSeed e))

/-
Claim theorems.
-/

/-- Claim C1: the projector is deterministic.  The embedding of
`projectTo3D` is a pure function of the embedding list alone: its only
stochastic ingredient is the linear-congruential generator `lcgNext`
seeded by `initialSeed` from the input itself (see `initPositions`), and
no ambient random source appears anywhere in the definition, so two
calls on the same list always agree. -/
theorem projectTo3D_deterministic (ops : MathOps) (e1 e2 : List (List JSNum))
    (h : e1 = e2) : projectTo3D ops e1 = projectTo3D ops e2 := by
  rw [h]

/-- Witness for C1 at a concrete input. -/
theorem projectTo3D_deterministic_witness :
    embCE = embCE ∧ projectTo3D opsCE embCE = projectTo3D opsCE embCE :=
  ⟨rfl, projectTo3D_deterministic opsCE embCE embCE rfl⟩

/-- Claim C2: every coordinate of every position returned by
`projectTo3D` is a finite number within the clamp bound [-15, 15],
for every input list and every realization of the Math primitives. -/
theorem projectTo3D_output_bounded (ops : MathOps) (e : List (List JSNum)) (p : V3)
    (hp : p ∈ projectTo3D ops e) :
    (∃ q : ℚ, p.x = JSNum.fin q ∧ -15 ≤ q ∧ q ≤ 15) ∧
    (∃ q : ℚ, p.y = JSNum.fin q ∧ -15 ≤ q ∧ q ≤ 15) ∧
    (∃ q : ℚ, p.z = JSNum.fin q ∧ -15 ≤ q ∧ q ≤ 15) := by
  unfold projectTo3D at hp
  split_ifs at hp with h0 h1 h2
  · simp at hp
  · rw [List.mem_singleton] at hp
    subst hp
    refine ⟨⟨0, rfl, by norm_num, by norm_num⟩, ⟨0, rfl, by norm_num, by norm_num⟩,
      ⟨0, rfl, by norm_num, by norm_num⟩⟩
  · simp only [List.mem_cons, List.not_mem_nil, or_false] at hp
    rcases hp with rfl | rfl
    · exact ⟨⟨-5, rfl, by norm_num, by norm_num⟩, ⟨0, rfl, by norm_num, by norm_num⟩,
        ⟨0, rfl, by norm_num, by norm_num⟩⟩
    · exact ⟨⟨5, rfl, by norm_num, by norm_num⟩, ⟨0, rfl, by norm_num, by norm_num⟩,
        ⟨0, rfl, by norm_num, by norm_num⟩⟩
  · simp only [centerStep, List.mem_map] at hp
    obtain ⟨p0, _, rfl⟩ := hp
    exact ⟨clamp15_flat _, clamp15_flat _, clamp15_flat _⟩

/-- Witness for C2 at a concrete input. -/
theorem projectTo3D_output_bounded_witness :
    v3zero ∈ projectTo3D opsDemo [[JSNum.fin 0]] ∧
    (∃ q : ℚ, v3zero.x = JSNum.fin q ∧ -15 ≤ q ∧ q ≤ 15) :=
  ⟨by decide,
   (projectTo3D_output_bounded opsDemo [[JSNum.fin 0]] v3zero (by decide)).1⟩

/-- Claim C3: `projectTo3D` preserves the input length; the empty input
returns the empty list, a single vector returns the origin, and two
vectors return a pair of distinct points symmetric about the origin. -/
theorem projectTo3D_shape (ops : MathOps) (e : List (List JSNum)) :
    (projectTo3D ops e).length = e.length ∧
    (e.length = 0 → projectTo3D ops e = []) ∧
    (e.length = 1 → projectTo3D ops e = [v3zero]) ∧
    (e.length = 2 → ∃ a : V3,
      projectTo3D ops e = [a, ⟨JSNum.jsNeg a.x, JSNum.jsNeg a.y, JSNum.jsNeg a.z⟩] ∧
      a ≠ ⟨JSNum.jsNeg a.x, JSNum.jsNeg a.y, JSNum.jsNeg a.z⟩) := by
  refine ⟨?_, ?_, ?_, ?_⟩
  · unfold projectTo3D
    split_ifs with h0 h1 h2
    · simp [h0]
    · simp [h1]
    · simp [h2]
    · simp only [centerStep, List.length_map]
      exact relaxedPositions_length ops e
  · intro h; simp [projectTo3D, h]
  · intro h; simp [projectTo3D, h]
  · intro h
    refine ⟨⟨JSNum.fin (-5), JSNum.fin 0, JSNum.fin 0⟩, ?_, by decide⟩
    simp only [projectTo3D, h]
    norm_num [JSNum.jsNeg]

/-- Witness for C3 at a concrete two-vector input. -/
theorem projectTo3D_shape_witness :
    ([[JSNum.fin 1], [JSNum.fin 2]] : List (List JSNum)).length = 2 ∧
    ∃ a : V3,
      projectTo3D opsDemo [[JSNum.fin 1], [JSNum.fin 2]] =
        [a, ⟨JSNum.jsNeg a.x, JSNum.jsNeg a.y, JSNum.jsNeg a.z⟩] ∧
      a ≠ ⟨JSNum.jsNeg a.x, JSNum.jsNeg a.y, JSNum.jsNeg a.z⟩ :=
  ⟨rfl, (projectTo3D_shape opsDemo [[JSNum.fin 1], [JSNum.fin 2]]).2.2.2 rfl⟩

/-- Counterexample for C5: at similarity -1 the ideal distance is 42,
which is nowhere near the claimed maximum of about 22 (it exceeds it by
the full span of 20). -/
theorem idealDist_neg_one_42 :
    idealDist (JSNum.fin (-1)) = JSNum.fin 42 ∧ ¬ mathAbs (42 - 22) ≤ 10 := by
  constructor
  · decide
  · decide

/-- Claim C5 (amended): on clamped similarities s in [-1, 1] the ideal
distance is exactly (1 - s) * 20 + 2, decreasing in s, with minimum 2 at
s = 1, value 22 at s = 0, and maximum 42 attained at s = -1. -/
theorem idealDist_law (s : ℚ) (h1 : -1 ≤ s) (h2 : s ≤ 1) :
    idealDist (JSNum.fin s) = JSNum.fin ((1 - s) * 20 + 2) ∧
    (∀ t : ℚ, s ≤ t → (1 - t) * 20 + 2 ≤ (1 - s) * 20 + 2) ∧
    2 ≤ (1 - s) * 20 + 2 ∧ (1 - s) * 20 + 2 ≤ 42 ∧
    idealDist (JSNum.fin 1) = JSNum.fin 2 ∧
    idealDist (JSNum.fin 0) = JSNum.fin 22 ∧
    idealDist (JSNum.fin (-1)) = JSNum.fin 42 := by
  refine ⟨?_, ?_, by linarith, by linarith, by decide, by decide, by decide⟩
  · simp [idealDist, JSNum.jsAdd, JSNum.jsMul, JSNum.jsSub, JSNum.jsNeg]
    ring_nf
  · intro t ht; linarith

/-- Witness for C5 at s = 0. -/
theorem idealDist_law_witness :
    (-1 ≤ (0 : ℚ)) ∧ ((0 : ℚ) ≤ 1) ∧
    idealDist (JSNum.fin 0) = JSNum.fin ((1 - 0) * 20 + 2) :=
  ⟨by norm_num, by norm_num, (idealDist_law 0 (by norm_num) (by norm_num)).1⟩

/-- A guarded entry read is finite whenever the list carries no
infinities (NaN entries are coerced to 0 by the guard). -/
theorem entry_fin (l : List JSNum)
    (hl : ∀ v ∈ l, v ≠ JSNum.inf ∧ v ≠ JSNum.ninf) (i : Nat) :
    ∃ q : ℚ, jsOr (l.getD i (JSNum.fin 0)) (JSNum.fin 0) = JSNum.fin q := by
  have hv : l.getD i (JSNum.fin 0) ≠ JSNum.inf ∧ l.getD i (JSNum.fin 0) ≠ JSNum.ninf := by
    rw [List.getD_eq_getElem?_getD]
    cases h : l[i]? with
    | none => simp
    | some w =>
        simp only [Option.getD_some]
        exact hl w (List.getElem?_mem h)
  cases hw : l.getD i (JSNum.fin 0) with
  | fin q =>
      by_cases hq : (JSNum.fin q = JSNum.fin 0 ∨ JSNum.fin q = JSNum.nan)
      · exact ⟨0, by unfold jsOr; rw [if_pos hq]⟩
      · exact ⟨q, by unfold jsOr; rw [if_neg hq]⟩
  | inf => exact absurd hw hv.1
  | ninf => exact absurd hw hv.2
  | nan => exact ⟨0, by unfold jsOr; simp⟩

/-- One step of the similarity accumulation keeps all three components
finite and the two norms nonnegative. -/
theorem simStep_fin (a b : List JSNum)
    (ha : ∀ v ∈ a, v ≠ JSNum.inf ∧ v ≠ JSNum.ninf)
    (hb : ∀ v ∈ b, v ≠ JSNum.inf ∧ v ≠ JSNum.ninf) (i : Nat) (d0 na0 nb0 : ℚ)
    (hna : 0 ≤ na0) (hnb : 0 ≤ nb0) :
    ∃ d na nb : ℚ,
      simStep a b (JSNum.fin d0, JSNum.fin na0, JSNum.fin nb0) i =
        (JSNum.fin d, JSNum.fin na, JSNum.fin nb) ∧ 0 ≤ na ∧ 0 ≤ nb := by
  obtain ⟨qa, hqa⟩ := entry_fin a ha i
  obtain ⟨qb, hqb⟩ := entry_fin b hb i
  refine ⟨d0 + qa * qb, na0 + qa * qa, nb0 + qb * qb, ?_, ?_, ?_⟩
  · unfold simStep
    rw [hqa, hqb]
    rfl
  · nlinarith [mul_self_nonneg qa]
  · nlinarith [mul_self_nonneg qb]

/-- The whole similarity accumulation is finite with nonnegative norms
when neither vector carries an infinity. -/
theorem simFold_fin (a b : List JSNum)
    (ha : ∀ v ∈ a, v ≠ JSNum.inf ∧ v ≠ JSNum.ninf)
    (hb : ∀ v ∈ b, v ≠ JSNum.inf ∧ v ≠ JSNum.ninf) :
    ∃ d na nb : ℚ,
      simFold a b = (JSNum.fin d, JSNum.fin na, JSNum.fin nb) ∧ 0 ≤ na ∧ 0 ≤ nb := by
  have aux : ∀ (l : List Nat) (d0 na0 nb0 : ℚ), 0 ≤ na0 → 0 ≤ nb0 →
      ∃ d na nb : ℚ,
        l.foldl (simStep a b) (JSNum.fin d0, JSNum.fin na0, JSNum.fin nb0) =
          (JSNum.fin d, JSNum.fin na, JSNum.fin nb) ∧ 0 ≤ na ∧ 0 ≤ nb := by
    intro l
    induction l with
    | nil => intro d0 na0 nb0 h1 h2; exact ⟨d0, na0, nb0, rfl, h1, h2⟩
    | cons i t ih =>
        intro d0 na0 nb0 h1 h2
        obtain ⟨d, na, nb, hstep, hna, hnb⟩ := simStep_fin a b ha hb i d0 na0 nb0 h1 h2
        obtain ⟨d2, na2, nb2, hrec, hna2, hnb2⟩ := ih d na nb hna hnb
        refine ⟨d2, na2, nb2, ?_, hna2, hnb2⟩
        rw [List.foldl_cons, hstep, hrec]
  exact aux (List.range a.length) 0 0 0 le_rfl le_rfl

/-- Clamping a finite value between finite bounds lands between the
bounds. -/
theorem mathMaxMin_bounds (lo hi r : ℚ) (h : lo ≤ hi) :
    lo ≤ mathMax lo (mathMin hi r) ∧ mathMax lo (mathMin hi r) ≤ hi := by
  unfold mathMax mathMin
  split_ifs <;> constructor <;> linarith

/-- Counterexample for C4: a vector containing Infinity makes
`cosineSimilarity` return NaN, not the neutral 0 — the `|| 0` falsy
guard converts NaN entries but lets Infinity through, and
Infinity/Infinity is NaN. -/
theorem cosineSimilarity_infinity_nan :
    cosineSimilarity opsCE [JSNum.inf] [JSNum.fin 1] = JSNum.nan ∧
    JSNum.nan ≠ JSNum.fin 0 := by
  constructor
  · decide
  · decide

/-- Claim C4 (amended): when the non-finite entries are NaN only (no
infinities), `cosineSimilarity` returns a finite value in [-1, 1] — the
NaN entries are coerced to 0 by the falsy guard — provided the sqrt
realization does not map the two positive norms to a product of zero. -/
theorem cosineSimilarity_nan_contained (ops : MathOps) (a b : List JSNum)
    (ha : ∀ v ∈ a, v ≠ JSNum.inf ∧ v ≠ JSNum.ninf)
    (hb : ∀ v ∈ b, v ≠ JSNum.inf ∧ v ≠ JSNum.ninf)
    (hd : jsMul (jsSqrt ops (simFold a b).2.1) (jsSqrt ops (simFold a b).2.2) ≠
      JSNum.fin 0) :
    ∃ q : ℚ, cosineSimilarity ops a b = JSNum.fin q ∧ -1 ≤ q ∧ q ≤ 1 := by
  unfold cosineSimilarity
  by_cases h1 : a.length = 0 ∨ b.length = 0
  · rw [if_pos h1]
    exact ⟨0, rfl, by norm_num, by norm_num⟩
  · rw [if_neg h1]
    obtain ⟨d, na, nb, hsf, hna, hnb⟩ := simFold_fin a b ha hb
    rw [hsf] at hd
    simp only [hsf]
    by_cases h2 : (JSNum.fin na = JSNum.fin 0 ∨ JSNum.fin nb = JSNum.fin 0)
    · rw [if_pos h2]
      exact ⟨0, rfl, by norm_num, by norm_num⟩
    · rw [if_neg h2]
      simp only [not_or, JSNum.fin.injEq] at h2
      have hna0 : na ≠ 0 := h2.1
      have hnb0 : nb ≠ 0 := h2.2
      have hsa : jsSqrt ops (JSNum.fin na) = JSNum.fin (ops.sqrt na) := by
        simp [jsSqrt, hna0, not_lt.mpr hna]
      have hsb : jsSqrt ops (JSNum.fin nb) = JSNum.fin (ops.sqrt nb) := by
        simp [jsSqrt, hnb0, not_lt.mpr hnb]
      simp only [hsa, hsb, JSNum.jsMul] at hd ⊢
      have hprod : ops.sqrt na * ops.sqrt nb ≠ 0 := by
        intro hc
        exact hd (by rw [hc])
      have hdiv : jsDiv (JSNum.fin d) (JSNum.fin (ops.sqrt na * ops.sqrt nb)) =
          JSNum.fin (d / (ops.sqrt na * ops.sqrt nb)) := by
        simp [jsDiv, hprod]
      rw [hdiv]
      simp only [JSNum.jsMin, JSNum.jsMax]
      obtain ⟨hlo, hhi⟩ :=
        mathMaxMin_bounds (-1) 1 (d / (ops.sqrt na * ops.sqrt nb)) (by norm_num)
      exact ⟨_, rfl, hlo, hhi⟩

/-- Witness for the amended C4 at a concrete input containing a NaN
entry. -/
theorem cosineSimilarity_nan_contained_witness :
    jsMul (jsSqrt opsDemo (simFold [JSNum.fin 3, JSNum.nan] [JSNum.fin 4]).2.1)
      (jsSqrt opsDemo (simFold [JSNum.fin 3, JSNum.nan] [JSNum.fin 4]).2.2) ≠
      JSNum.fin 0 ∧
    ∃ q : ℚ,
      cosineSimilarity opsDemo [JSNum.fin 3, JSNum.nan] [JSNum.fin 4] = JSNum.fin q ∧
      -1 ≤ q ∧ q ≤ 1 :=
  ⟨by decide,
   cosineSimilarity_nan_contained opsDemo [JSNum.fin 3, JSNum.nan] [JSNum.fin 4]
     (by decide) (by decide) (by decide)⟩

/-- A value fixed by the [-15, 15] clamp is finite. -/
theorem clamp_id_fin {v : JSNum}
    (h : clamp v (JSNum.fin (-15)) (JSNum.fin 15) = v) : ∃ q : ℚ, v = JSNum.fin q := by
  obtain ⟨q, hq, _, _⟩ := clamp15_flat v
  exact ⟨q, by rw [← h, hq]⟩

/-- A finite JavaScript difference forces both operands finite, with the
value being the exact difference. -/
theorem jsSub_fin_inv :
    ∀ {u v : JSNum} {r : ℚ}, jsSub u v = JSNum.fin r →
      ∃ a b : ℚ, u = JSNum.fin a ∧ v = JSNum.fin b ∧ r = a - b := by
  intro u v r h
  cases u with
  | fin a =>
      cases v with
      | fin b =>
          refine ⟨a, b, rfl, rfl, ?_⟩
          simp only [jsSub, jsNeg, jsAdd, JSNum.fin.injEq] at h
          linarith
      | inf => simp [jsSub, jsNeg, jsAdd] at h
      | ninf => simp [jsSub, jsNeg, jsAdd] at h
      | nan => simp [jsSub, jsNeg, jsAdd] at h
  | inf => cases v <;> simp [jsSub, jsNeg, jsAdd] at h
  | ninf => cases v <;> simp [jsSub, jsNeg, jsAdd] at h
  | nan => cases v <;> simp [jsSub, jsNeg, jsAdd] at h

/-- Folding JavaScript addition over a list of finite values computes the
exact rational sum. -/
theorem foldl_jsAdd_fin (g : V3 → JSNum) :
    ∀ (ps : List V3), (∀ p ∈ ps, ∃ q : ℚ, g p = JSNum.fin q) →
      ∀ a : ℚ, ps.foldl (fun acc p => jsAdd acc (g p)) (JSNum.fin a)
        = JSNum.fin (a + (ps.map (fun p => toQ (g p))).sum) := by
  intro ps
  induction ps with
  | nil => intro _ a; simp
  | cons p t ih =>
      intro h a
      obtain ⟨q, hq⟩ := h p (List.mem_cons_self p t)
      have hq2 : toQ (g p) = q := by rw [hq]; rfl
      rw [List.foldl_cons, hq]
      have : jsAdd (JSNum.fin a) (JSNum.fin q) = JSNum.fin (a + q) := rfl
      rw [this, ih (fun x hx => h x (List.mem_cons_of_mem p hx)) (a + q)]
      rw [List.map_cons, List.sum_cons, hq2]
      congr 1
      ring

/-- Summing a constant shift over a list. -/
theorem sum_map_sub_const (g : V3 → ℚ) (c : ℚ) :
    ∀ ps : List V3,
      (ps.map (fun p => g p - c)).sum = (ps.map g).sum - ps.length * c := by
  intro ps
  induction ps with
  | nil => simp
  | cons p t ih =>
      simp only [List.map_cons, List.sum_cons, List.length_cons, ih]
      push_cast
      ring

/-- The centering computation of `centerStep`, one coordinate at a time:
if the per-point clamp after subtracting the centroid is the identity,
the re-centered coordinates sum to exactly zero. -/
theorem sumBy_center_zero (f : V3 → JSNum) (ps : List V3) (n : Nat)
    (hn : (n : ℚ) ≠ 0) (hne : ps ≠ [])
    (hcl : ∀ p ∈ ps,
      clamp (jsSub (f p) (centerCoord n ps f)) (JSNum.fin (-15)) (JSNum.fin 15)
        = jsSub (f p) (centerCoord n ps f))
    (hlen : ps.length = n) :
    ps.foldl
      (fun acc p =>
        jsAdd acc (clamp (jsSub (f p) (centerCoord n ps f)) (JSNum.fin (-15)) (JSNum.fin 15)))
      (JSNum.fin 0) = JSNum.fin 0 := by
  have hfin : ∀ p ∈ ps, ∃ r : ℚ, jsSub (f p) (centerCoord n ps f) = JSNum.fin r :=
    fun p hp => clamp_id_fin (hcl p hp)
  obtain ⟨p0, hp0⟩ := List.exists_mem_of_ne_nil ps hne
  obtain ⟨r0, hr0⟩ := hfin p0 hp0
  obtain ⟨a0, cq, _, hcq, _⟩ := jsSub_fin_inv hr0
  have hfp : ∀ p ∈ ps, ∃ q : ℚ, f p = JSNum.fin q := by
    intro p hp
    obtain ⟨r, hr⟩ := hfin p hp
    obtain ⟨aa, bb, h1, _, _⟩ := jsSub_fin_inv hr
    exact ⟨aa, h1⟩
  have hsum : sumBy f ps = JSNum.fin ((ps.map (fun p => toQ (f p))).sum) := by
    unfold sumBy
    rw [foldl_jsAdd_fin f ps hfp 0]
    rw [zero_add]
  have hcval : centerCoord n ps f
      = JSNum.fin ((ps.map (fun p => toQ (f p))).sum / (n : ℚ)) := by
    unfold centerCoord
    rw [hsum]
    simp [jsDiv, hn]
  have hcq2 : cq = (ps.map (fun p => toQ (f p))).sum / (n : ℚ) := by
    rw [hcval] at hcq
    exact (JSNum.fin.injEq _ _).mp hcq.symm
  have hterm : ∀ p ∈ ps,
      clamp (jsSub (f p) (centerCoord n ps f)) (JSNum.fin (-15)) (JSNum.fin 15)
        = JSNum.fin (toQ (f p) - cq) := by
    intro p hp
    obtain ⟨q, hq⟩ := hfp p hp
    rw [hcl p hp, hq, hcval, ← hcq2]
    simp [jsSub, jsNeg, jsAdd, toQ, sub_eq_add_neg]
  rw [foldl_jsAdd_fin
    (fun p => clamp (jsSub (f p) (centerCoord n ps f)) (JSNum.fin (-15)) (JSNum.fin 15))
    ps (fun p hp => ⟨toQ (f p) - cq, hterm p hp⟩) 0]
  have hmap : ps.map
      (fun p => toQ (clamp (jsSub (f p) (centerCoord n ps f)) (JSNum.fin (-15)) (JSNum.fin 15)))
      = ps.map (fun p => toQ (f p) - cq) := by
    apply List.map_congr_left
    intro p hp
    rw [hterm p hp]
    rfl
  rw [hmap, sum_map_sub_const (fun p => toQ (f p)) cq ps, hlen, hcq2]
  congr 1
  field_simp

set_option maxRecDepth 2000000 in
set_option maxHeartbeats 2000000 in
/-- Counterexample for C6: on the concrete stationary input `embCE` with
the Math realization `opsCE`, the final re-clamp saturates one coordinate
(16 is clamped to 15), so the centroid of the positions returned by
`projectTo3D` is (-1/3, 0, 0), not the origin. -/
theorem projectTo3D_centering_offset :
    centroid3 (projectTo3D opsCE embCE) ≠ v3zero := by
  have h : projectTo3D opsCE embCE = centerStep 3 (relaxedPositions opsCE embCE) := rfl
  have h2 : relaxedPositions opsCE embCE =
      [⟨JSNum.fin (-12), JSNum.fin 0, JSNum.fin 0⟩,
       ⟨JSNum.fin (-12), JSNum.fin 0, JSNum.fin 0⟩,
       ⟨JSNum.fin 12, JSNum.fin 0, JSNum.fin 0⟩] := by decide
  rw [h, h2]
  decide

/-- Claim C6 (amended): for N at least 3 vectors, `projectTo3D` subtracts
the centroid of the relaxed positions from every point and re-clamps each
coordinate; whenever that re-clamp is the identity (no coordinate is
pushed outside [-15, 15]), the centroid of the returned positions is
exactly the origin. -/
theorem projectTo3D_centering (ops : MathOps) (e : List (List JSNum))
    (h3 : 3 ≤ e.length)
    (hx : ∀ p ∈ relaxedPositions ops e,
      clamp (jsSub p.x (centerCoord e.length (relaxedPositions ops e) (fun p => p.x)))
        (JSNum.fin (-15)) (JSNum.fin 15)
      = jsSub p.x (centerCoord e.length (relaxedPositions ops e) (fun p => p.x)))
    (hy : ∀ p ∈ relaxedPositions ops e,
      clamp (jsSub p.y (centerCoord e.length (relaxedPositions ops e) (fun p => p.y)))
        (JSNum.fin (-15)) (JSNum.fin 15)
      = jsSub p.y (centerCoord e.length (relaxedPositions ops e) (fun p => p.y)))
    (hz : ∀ p ∈ relaxedPositions ops e,
      clamp (jsSub p.z (centerCoord e.length (relaxedPositions ops e) (fun p => p.z)))
        (JSNum.fin (-15)) (JSNum.fin 15)
      = jsSub p.z (centerCoord e.length (relaxedPositions ops e) (fun p => p.z))) :
    centroid3 (projectTo3D ops e) = v3zero := by
  have hproj : projectTo3D ops e = centerStep e.length (relaxedPositions ops e) := by
    unfold projectTo3D
    rw [if_neg (by omega), if_neg (by omega), if_neg (by omega)]
  have hlen : (relaxedPositions ops e).length = e.length := relaxedPositions_length ops e
  have hne : relaxedPositions ops e ≠ [] := by
    intro h0
    rw [h0] at hlen
    simp at hlen
    omega
  have hn : ((e.length : ℚ)) ≠ 0 := Nat.cast_ne_zero.mpr (by omega)
  have holen : (centerStep e.length (relaxedPositions ops e)).length = e.length := by
    simp only [centerStep, List.length_map]
    exact hlen
  rw [hproj]
  unfold centroid3
  rw [holen]
  have hox : sumBy (fun p => p.x) (centerStep e.length (relaxedPositions ops e))
      = JSNum.fin 0 := by
    unfold sumBy centerStep
    rw [List.foldl_map]
    exact sumBy_center_zero (fun p => p.x) (relaxedPositions ops e) e.length hn hne hx hlen
  have hoy : sumBy (fun p => p.y) (centerStep e.length (relaxedPositions ops e))
      = JSNum.fin 0 := by
    unfold sumBy centerStep
    rw [List.foldl_map]
    exact sumBy_center_zero (fun p => p.y) (relaxedPositions ops e) e.length hn hne hy hlen
  have hoz : sumBy (fun p => p.z) (centerStep e.length (relaxedPositions ops e))
      = JSNum.fin 0 := by
    unfold sumBy centerStep
    rw [List.foldl_map]
    exact sumBy_center_zero (fun p => p.z) (relaxedPositions ops e) e.length hn hne hz hlen
  unfold centerCoord
  rw [hox, hoy, hoz]
  simp [jsDiv, hn, v3zero]

set_option maxRecDepth 2000000 in
set_option maxHeartbeats 2000000 in
/-- The witness run for C6 stays strictly inside the clamp bounds after
centering. -/
theorem relaxedW_eval :
    relaxedPositions opsW embW =
      [⟨JSNum.fin (-8), JSNum.fin 0, JSNum.fin 0⟩,
       ⟨JSNum.fin (-8), JSNum.fin 0, JSNum.fin 0⟩,
       ⟨JSNum.fin 8, JSNum.fin 0, JSNum.fin 0⟩] := by decide

set_option maxRecDepth 2000000 in
set_option maxHeartbeats 2000000 in
/-- Witness for the amended C6 at the concrete stationary input `embW`. -/
theorem projectTo3D_centering_witness :
    3 ≤ embW.length ∧ centroid3 (projectTo3D opsW embW) = v3zero :=
  ⟨by decide,
   projectTo3D_centering opsW embW (by decide)
     (by rw [relaxedW_eval]; decide)
     (by rw [relaxedW_eval]; decide)
     (by rw [relaxedW_eval]; decide)⟩

/-- The Jacobi loop never touches the caller's matrix component. -/
theorem jacobiGo_caller (ops : MathOps) :
    ∀ (fuel : Nat) (st : JacobiState), (jacobiGo ops fuel st).caller = st.caller := by
  intro fuel
  induction fuel with
  | zero => intro st; rfl
  | succ m ih =>
      intro st
      rw [jacobiGo]
      split
      · rfl
      · rw [ih]

/-- The defensive row copy is value-equal to the original matrix. -/
theorem copyMatrix_id (m : Mat3) : copyMatrix m = m := by
  unfold copyMatrix
  simp

/-- Claim C10: `computeEigendecomposition` never modifies its input
matrix.  In the embedding the Jacobi loop carries the caller's array
through as a separate component which it never writes (mirroring that the
source mutates only the copy `matrix.map((row) => [...row])`), and the
copy itself is value-equal to the input, so after the call the caller's
matrix holds exactly its pre-call values. -/
theorem eigendecomposition_no_mutation (ops : MathOps) (m : Mat3) :
    (computeEigendecompositionS ops m).2 = m ∧ copyMatrix m = m := by
  constructor
  · unfold computeEigendecompositionS
    simp only [jacobiGo_caller]
  · exact copyMatrix_id m

/-- Normalizing a standard basis vector is the identity whenever the
sqrt realization fixes 1. -/
theorem normalizeV_basis (ops : MathOps) (h : ops.sqrt 1 = 1) :
    normalizeV ops ⟨1, 0, 0⟩ = ⟨1, 0, 0⟩ ∧ normalizeV ops ⟨0, 1, 0⟩ = ⟨0, 1, 0⟩ ∧
    normalizeV ops ⟨0, 0, 1⟩ = ⟨0, 0, 1⟩ := by
  norm_num [normalizeV, mathSqrt, h]

/-- Evaluation of the eigendecomposition on diag(3, 2, 1): the pivot
search finds no off-diagonal mass, so the loop exits immediately, and
everything except the three normalizations reduces by computation. -/
theorem eig_diag321_eval (ops : MathOps) (h : ops.sqrt 1 = 1) :
    computeEigendecomposition ops [[3, 0, 0], [0, 2, 0], [0, 0, 1]] =
      ⟨(3, 2, 1), (⟨1, 0, 0⟩, ⟨0, 1, 0⟩, ⟨0, 0, 1⟩)⟩ := by
  have hstep : computeEigendecomposition ops [[3, 0, 0], [0, 2, 0], [0, 0, 1]] =
      ⟨(3, 2, 1),
       (normalizeV ops ⟨1, 0, 0⟩, normalizeV ops ⟨0, 1, 0⟩, normalizeV ops ⟨0, 0, 1⟩)⟩ := rfl
  obtain ⟨hn1, hn2, hn3⟩ := normalizeV_basis ops h
  rw [hstep, hn1, hn2, hn3]

/-- Evaluation of the eigendecomposition on the regularized covariance
diag(1/20, 1/20, 1/20) of a singleton group. -/
theorem eig_diag_eps_eval (ops : MathOps) (h : ops.sqrt 1 = 1) :
    computeEigendecomposition ops [[1/20, 0, 0], [0, 1/20, 0], [0, 0, 1/20]] =
      ⟨(1/20, 1/20, 1/20), (⟨1, 0, 0⟩, ⟨0, 1, 0⟩, ⟨0, 0, 1⟩)⟩ := by
  have hstep : computeEigendecomposition ops [[1/20, 0, 0], [0, 1/20, 0], [0, 0, 1/20]] =
      ⟨(1/20, 1/20, 1/20),
       (normalizeV ops ⟨1, 0, 0⟩, normalizeV ops ⟨0, 1, 0⟩, normalizeV ops ⟨0, 0, 1⟩)⟩ := rfl
  obtain ⟨hn1, hn2, hn3⟩ := normalizeV_basis ops h
  rw [hstep, hn1, hn2, hn3]

/-- Claim C8: on the already-diagonal matrix diag(3, 2, 1) the
eigendecomposition returns the eigenvalues exactly [3, 2, 1] (descending,
hence within the 1e-6 tolerance) and the eigenvectors exactly the
standard basis with sign +1 (so equal to the basis up to sign within
1e-6, each of exact unit length), whenever the sqrt realization fixes 1
as the real Math.sqrt does. -/
theorem eigendecomposition_diag321 (ops : MathOps) (h : ops.sqrt 1 = 1) :
    computeEigendecomposition ops [[3, 0, 0], [0, 2, 0], [0, 0, 1]] =
      ⟨(3, 2, 1), (⟨1, 0, 0⟩, ⟨0, 1, 0⟩, ⟨0, 0, 1⟩)⟩ :=
  eig_diag321_eval ops h

/-- Witness for C8 with a concrete sqrt realization. -/
theorem eigendecomposition_diag321_witness :
    opsDemo.sqrt 1 = 1 ∧
    computeEigendecomposition opsDemo [[3, 0, 0], [0, 2, 0], [0, 0, 1]] =
      ⟨(3, 2, 1), (⟨1, 0, 0⟩, ⟨0, 1, 0⟩, ⟨0, 0, 1⟩)⟩ :=
  ⟨by decide, eigendecomposition_diag321 opsDemo (by decide)⟩

/-- Claim C9: for a group with exactly one node the ellipsoid
construction yields all three radii equal to the configured floor
MIN_RADIUS = 2.0 scaled by FATNESS_FACTOR = 1.6, centered at the node,
with the identity rotation basis (finite and non-NaN).  The hypotheses
hold for the real Math.sqrt: sqrt(1) = 1, and sqrt(1/20) is about 0.224,
below 2/7, so the radius floor is active. -/
theorem ellipsoid_singleton_floor (ops : MathOps) (node : ProjectedNode)
    (h1 : ops.sqrt 1 = 1) (h2 : ops.sqrt (1/20) ≤ 2/7) :
    computeEllipsoidGeometry ops [node] =
      some ⟨node.position, (2 * (16/10), 2 * (16/10), 2 * (16/10)),
        [[1, 0, 0], [0, 1, 0], [0, 0, 1]]⟩ := by
  obtain ⟨⟨x, y, z⟩⟩ := node
  have hcent : centroidOfNodes [⟨⟨x, y, z⟩⟩] = ⟨x, y, z⟩ := by
    simp only [centroidOfNodes, List.foldl_cons, List.foldl_nil, List.length_cons,
      List.length_nil, Nat.cast_one]
    norm_num
  have hcov : covMatrixOf [⟨⟨x, y, z⟩⟩] ⟨x, y, z⟩ =
      [[1/20, 0, 0], [0, 1/20, 0], [0, 0, 1/20]] := by
    simp only [covMatrixOf, List.foldl_cons, List.foldl_nil, sub_self, mul_zero, zero_mul,
      add_zero, List.length_cons, List.length_nil, Nat.cast_one]
    norm_num [mset, mget]
  have heig := eig_diag_eps_eval ops h1
  have hrad : mathMax (mathSqrt ops (mathAbs (1/20)) * 7) 2 = 2 := by
    have habs : mathAbs (1/20) = 1/20 := by norm_num [mathAbs]
    have hsq : mathSqrt ops (1/20) = ops.sqrt (1/20) := by norm_num [mathSqrt]
    rw [habs, hsq]
    unfold mathMax
    rw [if_pos (by linarith)]
  unfold computeEllipsoidGeometry
  rw [if_neg (by norm_num)]
  simp only [hcent, hcov, heig, hrad, qIsFinite, if_true, createRotationMatrix]

/-- Witness for C9 with a concrete node and sqrt realization. -/
theorem ellipsoid_singleton_floor_witness :
    opsDemo.sqrt 1 = 1 ∧ opsDemo.sqrt (1/20) ≤ 2/7 ∧
    computeEllipsoidGeometry opsDemo [nodeDemo] =
      some ⟨nodeDemo.position, (2 * (16/10), 2 * (16/10), 2 * (16/10)),
        [[1, 0, 0], [0, 1, 0], [0, 0, 1]]⟩ :=
  ⟨by decide, by decide, ellipsoid_singleton_floor opsDemo nodeDemo (by decide) (by decide)⟩

end TSM
